import Mathlib

/-!
A shallow embedding of the adaptive multipart upload core of the
`s3_upload_demo` repository (`app/config.py`, `app/domains/upload_service.py`)
together with theorems settling the specification claims about it.

Modelling conventions:
* Python strings that the code inspects character by character (file names,
  the comma-separated extension list) are modelled as `List Char`.
* ETag values returned by the object store are opaque tokens; they are
  modelled as `Nat`.
* A `GatewayBehavior` fixes, for one orchestrator run, whether each call to
  the S3 client succeeds or raises (the S3 client wraps every `ClientError`
  in an exception, except `abort_multipart_upload`, which swallows the error
  and returns a `bool`, so abort is modelled as never raising).
* Orchestrator runs produce an explicit trace of gateway and buffer events,
  so that atomicity, ordering and memory claims can be stated over traces.
* The driver measures the size of the actual byte source
  (`_get_file_size`), so the declared `file_size` always equals the number
  of bytes the read loops can consume.
-/

namespace S3

abbrev Chars := List Char

/-- The fields of `app/config.py` `Settings` consumed by the upload core.
The default values mirror the source defaults. -/
structure Settings where
  maxFileSize : Nat := 1024 * 1024 * 1024
  allowedExtensions : Chars :=
    "jpg,jpeg,png,gif,pdf,txt,doc,docx,zip,mkv,mp4,mp3,xlsx,xls,csv,ppt,pptx".toList
  multipartThreshold : Nat := 100 * 1024 * 1024
  maxConcurrentUploads : Nat := 5
  chunkSizeSmall : Nat := 50 * 1024 * 1024
  chunkSizeMedium : Nat := 100 * 1024 * 1024
  chunkSizeLarge : Nat := 200 * 1024 * 1024
  smallFileThreshold : Nat := 500 * 1024 * 1024
  mediumFileThreshold : Nat := 1024 * 1024 * 1024
  streamingThreshold : Nat := 2 * 1024 * 1024 * 1024
  minChunksForConcurrency : Nat := 2
  maxChunksFullConcurrency : Nat := 3
  maxChunksLimitedConcurrency : Nat := 10

/-- `str.split(",")` on a character list. -/
def splitOnComma : Chars → List Chars
  | [] => [[]]
  | c :: rest =>
    if c = ',' then [] :: splitOnComma rest
    else
      match splitOnComma rest with
      | [] => [[c]]
      | piece :: pieces => (c :: piece) :: pieces

/-- `str.strip()`: drop whitespace from both ends. -/
def strip (cs : Chars) : Chars :=
  ((cs.dropWhile Char.isWhitespace).reverse.dropWhile Char.isWhitespace).reverse

/-- `str.lower()` on a character list. -/
def lower (cs : Chars) : Chars := cs.map Char.toLower

/-- `Settings.allowed_extensions_list`:
`[ext.strip().lower() for ext in self.allowed_extensions.split(",")]`. -/
def Settings.allowedExtensionsList (s : Settings) : List Chars :=
  (splitOnComma s.allowedExtensions).map (fun e => lower (strip e))

/-- `Settings.get_optimal_chunk_size` (config.py lines 71-78). -/
def Settings.getOptimalChunkSize (s : Settings) (fileSize : Nat) : Nat :=
  if fileSize ≤ s.smallFileThreshold then s.chunkSizeSmall
  else if fileSize ≤ s.mediumFileThreshold then s.chunkSizeMedium
  else s.chunkSizeLarge

/-- `Settings.get_optimal_concurrency` (config.py lines 80-89). -/
def Settings.getOptimalConcurrency (s : Settings) (totalChunks : Nat) : Nat :=
  if totalChunks < s.minChunksForConcurrency then 1
  else if totalChunks ≤ s.maxChunksFullConcurrency then totalChunks
  else if totalChunks ≤ s.maxChunksLimitedConcurrency then min 3 totalChunks
  else min s.maxConcurrentUploads totalChunks

/-- `Settings.should_use_streaming`: `file_size >= self.streaming_threshold`. -/
def Settings.shouldUseStreaming (s : Settings) (fileSize : Nat) : Bool :=
  decide (s.streamingThreshold ≤ fileSize)

/-- `Settings.should_use_multipart`: `file_size >= self.multipart_threshold`. -/
def Settings.shouldUseMultipart (s : Settings) (fileSize : Nat) : Bool :=
  decide (s.multipartThreshold ≤ fileSize)

/-- The validation errors raised by `UploadService._validate_file`
(the source attaches diagnostic messages; these do not affect control
flow and are not modelled). -/
inductive ValidationErr where
  | fileSizeExceed
  | fileTypeNotAllowed
deriving DecidableEq

/-- `filename.rsplit('.', 1)[1]`: the characters after the last `'.'`
(meaningful when the name contains a dot). -/
def extAfterLastDot (filename : Chars) : Chars :=
  (filename.reverse.takeWhile (fun c => ¬ (c = '.'))).reverse

/-- `UploadService._validate_file` (upload_service.py lines 23-36): the size
check runs first and raises `FileSizeExceedError` for `file_size >
settings.max_file_size`; then, only when the name contains a `'.'`, the
extension after the last dot is lowercased and checked against the allowed
list. -/
def validateFile (s : Settings) (filename : Chars) (fileSize : Nat) :
    Option ValidationErr :=
  if s.maxFileSize < fileSize then some .fileSizeExceed
  else if '.' ∈ filename then
    if lower (extAfterLastDot filename) ∈ s.allowedExtensionsList then none
    else some .fileTypeNotAllowed
  else none

/-- The result dictionary of `UploadService.calculate_chunks`
(upload_service.py lines 446-457). `last_chunk_size` is
`file_size % chunk_size or chunk_size` (Python truthiness). -/
structure ChunkInfo where
  totalChunks : Nat
  chunkSize : Nat
  lastChunkSize : Nat
deriving DecidableEq

/-- `UploadService.calculate_chunks`; `chunkSize? = none` corresponds to the
`chunk_size=None` default, which selects the size-band chunk size. -/
def calculateChunks (s : Settings) (fileSize : Nat) (chunkSize? : Option Nat) :
    ChunkInfo :=
  let c := chunkSize?.getD (s.getOptimalChunkSize fileSize)
  { totalChunks := (fileSize + c - 1) / c
    chunkSize := c
    lastChunkSize := if fileSize % c = 0 then c else fileSize % c }

/-- `total_chunks = (file_size + chunk_size - 1) // chunk_size` as computed in
`_upload_large_file_concurrent` (line 102) with the size-band chunk size. -/
def totalChunksOf (s : Settings) (fileSize : Nat) : Nat :=
  (fileSize + s.getOptimalChunkSize fileSize - 1) / s.getOptimalChunkSize fileSize

/-- The three upload strategies of `upload_single_file`
(upload_service.py lines 260-277). -/
inductive Strategy where
  | singleShot
  | concurrentMultipart
  | streamingMultipart
deriving DecidableEq

/-- The strategy dispatch of `upload_single_file`:
`if not should_use_multipart: single / elif not should_use_streaming:
concurrent / else: streaming`. -/
def chooseStrategy (s : Settings) (fileSize : Nat) : Strategy :=
  if s.shouldUseMultipart fileSize then
    if s.shouldUseStreaming fileSize then .streamingMultipart
    else .concurrentMultipart
  else .singleShot

/-- Outcomes of the store calls issued during one upload, fixed up front.
`partETag n = none` means `upload_part` for part `n` raises; `some e` means
it returns ETag token `e`. `abort_multipart_upload` swallows `ClientError`
and returns a `bool`, so it never raises here. -/
structure GatewayBehavior where
  createOk : Bool := true
  partETag : Nat → Option Nat
  completeOk : Bool := true
  abortOk : Bool := true
  putWholeOk : Bool := true

/-- Observable events of one upload run: gateway calls plus chunk-buffer
lifetime markers. `allocChunk p n` records that the chunk of part `p`
(`n` bytes) was read into memory; `freeChunk` records that its only
reference was dropped (loop variable rebound or function exited). -/
inductive Ev where
  | createSession (ok : Bool)
  | allocChunk (part size : Nat)
  | freeChunk (part size : Nat)
  | putPart (part : Nat) (ok : Bool)
  | completeCall (manifest : List (Nat × Nat)) (ok : Bool)
  | abortCall (ok : Bool)
  | putWhole (ok : Bool)
deriving DecidableEq

/-- Terminal outcome of an orchestrator helper: normal return, or the
exception class that propagates out of it. -/
inductive Outcome where
  | ok
  | sessionError
  | partsFailed (failed : List Nat)
  | partError (part : Nat)
  | commitFailed
deriving DecidableEq

/-- Result of one orchestrator run: the event trace, the outcome, and the
concurrency the run computed (fixed at 1 on the streaming path). -/
structure RunResult where
  trace : List Ev
  outcome : Outcome
  concurrency : Nat
deriving DecidableEq

/-- Length of the chunk returned by the `i`-th (0-based) call to
`file.file.read(chunk_size)` on a source of `fileSize` bytes. -/
def partLen (chunkSize fileSize i : Nat) : Nat :=
  min chunkSize (fileSize - i * chunkSize)

/-- The part numbers `i + 1` for `i in range(total_chunks)`, i.e.
`[1, 2, ..., totalChunks]`. -/
def concurrentParts (totalChunks : Nat) : List Nat :=
  List.range' 1 totalChunks

/-- The result-scanning loop of `_upload_large_file_concurrent` (lines
146-154): one pass over the `asyncio.gather` results (which are in
submission order), accumulating `(PartNumber, ETag)` successes into `parts`
and the 1-based indices `i + 1` of failures into `failed_parts`. -/
def scanResults : Nat → List (Nat × Option Nat) → List (Nat × Nat) × List Nat
  | _, [] => ([], [])
  | i, (pn, r) :: rest =>
    let (parts, failed) := scanResults (i + 1) rest
    match r with
    | some e => ((pn, e) :: parts, failed)
    | none => (parts, (i + 1) :: failed)

/-- `_upload_large_file_concurrent` (upload_service.py lines 97-186).
The pre-read loop buffers every chunk before any part upload starts; the
parts are then all submitted to `asyncio.gather` behind a semaphore.
`finishOrder` is the (unspecified) order in which the part-upload tasks
resolve; `gather` returns their results in submission order regardless.
If any part failed, the aggregate exception is raised before `complete`,
and the `except` block issues one `abort` and re-raises; if `complete`
itself raises, the same `except` block also issues one `abort`. All chunk
buffers live until the function exits. -/
def uploadLargeFileConcurrent (s : Settings) (g : GatewayBehavior)
    (fileSize : Nat) (finishOrder : List Nat) : RunResult :=
  let chunkSize := s.getOptimalChunkSize fileSize
  let totalChunks := totalChunksOf s fileSize
  if g.createOk then
    let readEvs := (List.range totalChunks).map
      (fun i => Ev.allocChunk (i + 1) (partLen chunkSize fileSize i))
    let freeEvs := (List.range totalChunks).map
      (fun i => Ev.freeChunk (i + 1) (partLen chunkSize fileSize i))
    let concurrency := s.getOptimalConcurrency totalChunks
    let results := (concurrentParts totalChunks).map (fun pn => (pn, g.partETag pn))
    let putEvs := finishOrder.map (fun pn => Ev.putPart pn (g.partETag pn).isSome)
    let (parts, failedParts) := scanResults 0 results
    let pre := Ev.createSession true :: readEvs ++ putEvs
    if failedParts.isEmpty then
      let sorted := parts.mergeSort (fun a b => Nat.ble a.1 b.1)
      if g.completeOk then
        { trace := pre ++ Ev.completeCall sorted true :: freeEvs
          outcome := .ok, concurrency := concurrency }
      else
        { trace := pre ++ Ev.completeCall sorted false :: Ev.abortCall g.abortOk :: freeEvs
          outcome := .commitFailed, concurrency := concurrency }
    else
      { trace := pre ++ Ev.abortCall g.abortOk :: freeEvs
        outcome := .partsFailed failedParts, concurrency := concurrency }
  else
    { trace := [.createSession false], outcome := .sessionError, concurrency := 0 }

/-- The `while True` read/upload loop of `_upload_large_file_streaming`
(lines 202-218), recursing on the unread bytes. Each iteration reads one
chunk into the single loop variable, uploads it as part `pn`, and the
buffer is dropped when the variable is rebound on the next read (or the
function exits). The first part failure propagates immediately. Returns
the loop events and either the accumulated parts list or the failing part
number. -/
def streamingGo (g : GatewayBehavior) (chunkSize pn : Nat)
    (parts : List (Nat × Nat)) (remaining : Nat) :
    List Ev × (List (Nat × Nat) ⊕ Nat) :=
  if h : chunkSize = 0 ∨ remaining = 0 then
    ([], .inl parts)
  else
    let len := min chunkSize remaining
    match g.partETag pn with
    | some e =>
      let rest := streamingGo g chunkSize (pn + 1) (parts ++ [(pn, e)]) (remaining - len)
      (Ev.allocChunk pn len :: Ev.putPart pn true :: Ev.freeChunk pn len :: rest.1, rest.2)
    | none =>
      ([Ev.allocChunk pn len, Ev.putPart pn false, Ev.freeChunk pn len], .inr pn)
termination_by remaining
decreasing_by
  simp only [not_or] at h
  omega

/-- `_upload_large_file_streaming` (upload_service.py lines 188-241):
strictly sequential parts starting at part number 1; on normal loop exit
the accumulated parts list is passed to `complete` as is; any exception
(a part failure or a `complete` failure) triggers one `abort` in the
`except` block and is re-raised. -/
def uploadLargeFileStreaming (s : Settings) (g : GatewayBehavior)
    (fileSize : Nat) : RunResult :=
  let chunkSize := s.getOptimalChunkSize fileSize
  if g.createOk then
    match streamingGo g chunkSize 1 [] fileSize with
    | (evs, .inl parts) =>
      if g.completeOk then
        { trace := Ev.createSession true :: evs ++ [Ev.completeCall parts true]
          outcome := .ok, concurrency := 1 }
      else
        { trace := Ev.createSession true ::
            evs ++ [Ev.completeCall parts false, Ev.abortCall g.abortOk]
          outcome := .commitFailed, concurrency := 1 }
    | (evs, .inr pn) =>
      { trace := Ev.createSession true :: evs ++ [Ev.abortCall g.abortOk]
        outcome := .partError pn, concurrency := 1 }
  else
    { trace := [.createSession false], outcome := .sessionError, concurrency := 1 }

/-- Driver-level outcome of `upload_single_file`: a success response, a
`success=False` response carrying the validation error's message, or the
`UploadFailedError` raised out of the generic `except` clause. -/
inductive SingleOutcome where
  | ok
  | validationFailed (e : ValidationErr)
  | uploadFailed
deriving DecidableEq

/-- `upload_single_file` (upload_service.py lines 243-293): measure size,
validate, then dispatch on the configured thresholds to the single-shot
path (`upload_file`), the concurrent orchestrator, or the streaming
orchestrator; validation errors are caught and turned into a
`success=False` response, any other exception is wrapped in
`UploadFailedError`. Returns the outcome and the trace of store calls. -/
def uploadSingleFile (s : Settings) (g : GatewayBehavior)
    (finishOrder : List Nat) (filename : Chars) (fileSize : Nat) :
    SingleOutcome × List Ev :=
  match validateFile s filename fileSize with
  | some e => (.validationFailed e, [])
  | none =>
    if s.shouldUseMultipart fileSize then
      let run :=
        if s.shouldUseStreaming fileSize then uploadLargeFileStreaming s g fileSize
        else uploadLargeFileConcurrent s g fileSize finishOrder
      match run.outcome with
      | .ok => (.ok, run.trace)
      | _ => (.uploadFailed, run.trace)
    else
      if g.putWholeOk then (.ok, [Ev.putWhole true])
      else (.uploadFailed, [Ev.putWhole false])

/-- Number of `abort_multipart_upload` calls in a trace. -/
def countAborts (t : List Ev) : Nat :=
  t.countP (fun e => match e with | .abortCall _ => true | _ => false)

/-- Number of `complete_multipart_upload` calls in a trace. -/
def countCompleteCalls (t : List Ev) : Nat :=
  t.countP (fun e => match e with | .completeCall _ _ => true | _ => false)

/-- The manifests passed to `complete_multipart_upload`, in call order. -/
def completeManifests (t : List Ev) : List (List (Nat × Nat)) :=
  t.filterMap (fun e => match e with | .completeCall m _ => some m | _ => none)

/-- Bytes of chunk buffers alive after each event, maximised over every
prefix of the trace, starting from `cur` live bytes. -/
def peakFrom (cur : Nat) : List Ev → Nat
  | [] => cur
  | .allocChunk _ sz :: rest => max cur (peakFrom (cur + sz) rest)
  | .freeChunk _ sz :: rest => max cur (peakFrom (cur - sz) rest)
  | _ :: rest => max cur (peakFrom cur rest)

/-- Peak number of chunk-buffer bytes simultaneously alive during a trace. -/
def peakBuffered (t : List Ev) : Nat := peakFrom 0 t

/-- Phase of one `upload_with_semaphore` task: before `semaphore.acquire`,
inside the `async with` block (part upload in flight), or finished. -/
inductive TaskPhase where
  | waiting
  | running
  | done
deriving DecidableEq

/-- Interleaving state of the gathered part-upload tasks: the semaphore
counter and the phase of each task. -/
structure PoolState where
  sem : Nat
  tasks : List TaskPhase
deriving DecidableEq

/-- Start state of the concurrent part-upload pool:
`asyncio.Semaphore(concurrency)` fresh, all `n` tasks submitted and
waiting to acquire it. -/
def initPool (concurrency n : Nat) : PoolState :=
  { sem := concurrency, tasks := List.replicate n .waiting }

/-- One scheduler step of the gathered tasks: a waiting task may enter the
`async with semaphore` block only when the counter is positive
(decrementing it), and a running task may finish (releasing the counter on
exit from the block). Task interleaving is otherwise unconstrained. -/
inductive PoolStep : PoolState → PoolState → Prop where
  | acquire (k : Nat) (l₁ l₂ : List TaskPhase) :
      PoolStep ⟨k + 1, l₁ ++ .waiting :: l₂⟩ ⟨k, l₁ ++ .running :: l₂⟩
  | release (k : Nat) (l₁ l₂ : List TaskPhase) :
      PoolStep ⟨k, l₁ ++ .running :: l₂⟩ ⟨k + 1, l₁ ++ .done :: l₂⟩

/-- States reachable from `init` by scheduler steps. -/
inductive PoolReachable (init : PoolState) : PoolState → Prop where
  | refl : PoolReachable init init
  | tail {s t : PoolState} :
      PoolReachable init s → PoolStep s t → PoolReachable init t

/-- Number of part uploads currently in flight. -/
def inFlight (st : PoolState) : Nat :=
  st.tasks.countP (fun p => decide (p = TaskPhase.running))

/-! ### Helper lemmas -/

theorem countP_map_false {α β : Type} (p : β → Bool) (f : α → β) (l : List α)
    (h : ∀ x, p (f x) = false) : (l.map f).countP p = 0 := by
  induction l with
  | nil => rfl
  | cons x xs ih => simp [List.countP_cons, h, ih]

theorem scanResults_eq (g : GatewayBehavior) :
    ∀ (n k : Nat),
      scanResults k ((List.range' (k + 1) n).map (fun pn => (pn, g.partETag pn))) =
        ((List.range' (k + 1) n).filterMap
            (fun pn => (g.partETag pn).map (fun e => (pn, e))),
          (List.range' (k + 1) n).filter (fun pn => (g.partETag pn).isNone)) := by
  intro n
  induction n with
  | zero => intro k; rfl
  | succ m ih =>
    intro k
    rw [List.range'_succ]
    simp only [List.map_cons, List.filterMap_cons, List.filter_cons, scanResults]
    have hk : k + 1 + 1 = k + 2 := rfl
    rw [hk, ih (k + 1)]
    cases hpe : g.partETag (k + 1) with
    | none => simp [hpe]
    | some e => simp [hpe]

theorem filterMap_fst_of_success (g : GatewayBehavior) (l : List Nat)
    (h : ∀ pn ∈ l, (g.partETag pn).isSome) :
    (l.filterMap (fun pn => (g.partETag pn).map (fun e => (pn, e)))).map Prod.fst
      = l := by
  induction l with
  | nil => rfl
  | cons x xs ih =>
    have hx := h x (List.mem_cons_self x xs)
    cases hpe : g.partETag x with
    | none => rw [hpe] at hx; simp at hx
    | some e =>
      simp only [List.filterMap_cons, hpe, Option.map_some', List.map_cons]
      rw [ih (fun pn hpn => h pn (List.mem_cons_of_mem x hpn))]

theorem filter_none_of_success (g : GatewayBehavior) (l : List Nat)
    (h : ∀ pn ∈ l, (g.partETag pn).isSome) :
    l.filter (fun pn => (g.partETag pn).isNone) = [] := by
  induction l with
  | nil => rfl
  | cons x xs ih =>
    have hx := h x (List.mem_cons_self x xs)
    simp only [List.filter_cons]
    rw [ih (fun pn hpn => h pn (List.mem_cons_of_mem x hpn))]
    cases hpe : g.partETag x with
    | none => rw [hpe] at hx; simp at hx
    | some e => simp [hpe]

theorem pairwise_ble_range' : ∀ (n s : Nat),
    (List.range' s n).Pairwise (fun a b => Nat.ble a b = true) := by
  intro n
  induction n with
  | zero => intro s; exact List.Pairwise.nil
  | succ m ih =>
    intro s
    rw [List.range'_succ]
    refine List.Pairwise.cons ?_ (ih (s + 1))
    intro b hb
    rw [List.mem_range'_1] at hb
    exact Nat.ble_eq.mpr (by omega)

theorem mergeSort_of_sorted_parts (g : GatewayBehavior) (l : List Nat)
    (hsorted : l.Pairwise (fun a b => Nat.ble a b = true))
    (h : ∀ pn ∈ l, (g.partETag pn).isSome) :
    ((l.filterMap (fun pn => (g.partETag pn).map (fun e => (pn, e)))).mergeSort
        (fun a b => Nat.ble a.1 b.1)) =
      l.filterMap (fun pn => (g.partETag pn).map (fun e => (pn, e))) := by
  apply List.mergeSort_of_sorted
  have hfst := filterMap_fst_of_success g l h
  have : ((l.filterMap
      (fun pn => (g.partETag pn).map (fun e => (pn, e)))).map Prod.fst).Pairwise
      (fun a b => Nat.ble a b = true) := by
    rw [hfst]; exact hsorted
  rw [List.pairwise_map] at this
  exact this

theorem ceil_bounds (c fs : Nat) (hc : 1 ≤ c) :
    fs ≤ c * ((fs + c - 1) / c) ∧ c * ((fs + c - 1) / c) < fs + c := by
  have hdm := Nat.div_add_mod (fs + c - 1) c
  have hmod : (fs + c - 1) % c < c := Nat.mod_lt _ (by omega)
  generalize hq : (fs + c - 1) / c = q at *
  generalize hm : c * q = m at *
  omega

theorem ceilDiv_sub_chunk (c r : Nat) (hc : 1 ≤ c) (hr : 1 ≤ r) :
    (r + c - 1) / c = (r - min c r + c - 1) / c + 1 := by
  rcases Nat.le_total r c with hle | hle
  · have h1 : min c r = r := by omega
    rw [h1]
    have h2 : r - r + c - 1 = c - 1 := by omega
    have h3 : (c - 1) / c = 0 := Nat.div_eq_of_lt (by omega)
    have h4 : (r + c - 1) / c = 1 := Nat.div_eq_of_lt_le (by omega) (by omega)
    rw [h2, h3, h4]
  · have h1 : min c r = c := by omega
    rw [h1]
    have h2 : r - c + c - 1 = r - 1 := by omega
    have h3 : r + c - 1 = (r - 1) + c := by omega
    rw [h2, h3, Nat.add_div_right _ (by omega)]

theorem streamingGo_success (g : GatewayBehavior) (c : Nat) (hc : 1 ≤ c) :
    ∀ (r pn : Nat) (parts : List (Nat × Nat)),
      (∀ j, pn ≤ j → j < pn + (r + c - 1) / c → (g.partETag j).isSome) →
      ∃ parts',
        (streamingGo g c pn parts r).2 = Sum.inl parts' ∧
          parts'.map Prod.fst =
            parts.map Prod.fst ++ List.range' pn ((r + c - 1) / c) := by
  intro r
  induction r using Nat.strong_induction_on with
  | _ r ih =>
    intro pn parts hsucc
    rw [streamingGo]
    by_cases hr : r = 0
    · subst hr
      have hcnt : (0 + c - 1) / c = 0 := Nat.div_eq_of_lt (by omega)
      rw [hcnt]
      simp [show c = 0 ∨ (0 : Nat) = 0 from Or.inr rfl]
    · have hguard : ¬ (c = 0 ∨ r = 0) := by omega
      rw [dif_neg hguard]
      have hcnt1 : 1 ≤ (r + c - 1) / c := by
        rw [Nat.one_le_div_iff (by omega)]; omega
      have hpn := hsucc pn (Nat.le_refl pn) (by omega)
      cases hpe : g.partETag pn with
      | none => rw [hpe] at hpn; simp at hpn
      | some e =>
        have hstep := ceilDiv_sub_chunk c r (by omega) (by omega)
        have hlt : r - min c r < r := by omega
        obtain ⟨parts', hres, hfst⟩ :=
          ih (r - min c r) hlt (pn + 1) (parts ++ [(pn, e)]) (by
            intro j hj1 hj2
            exact hsucc j (by omega) (by omega))
        refine ⟨parts', ?_, ?_⟩
        · simpa using hres
        · rw [hfst, hstep]
          rw [List.range'_succ]
          simp

theorem peakFrom_ge (cur : Nat) (t : List Ev) : cur ≤ peakFrom cur t := by
  induction t generalizing cur with
  | nil => exact Nat.le_refl cur
  | cons e rest ih =>
    cases e <;> simp only [peakFrom] <;> exact Nat.le_max_left _ _

theorem peakFrom_no_alloc (t : List Ev) (h : ∀ p sz, Ev.allocChunk p sz ∉ t) :
    ∀ cur, peakFrom cur t = cur := by
  induction t with
  | nil => intro cur; rfl
  | cons e rest ih =>
    intro cur
    have hrest : ∀ p sz, Ev.allocChunk p sz ∉ rest := by
      intro p sz hmem
      exact h p sz (List.mem_cons_of_mem e hmem)
    cases e with
    | allocChunk p sz => exact absurd (List.mem_cons_self _ rest) (h p sz)
    | freeChunk p sz =>
      simp only [peakFrom, ih hrest]
      omega
    | createSession ok => simp [peakFrom, ih hrest]
    | putPart p ok => simp [peakFrom, ih hrest]
    | completeCall m ok => simp [peakFrom, ih hrest]
    | abortCall ok => simp [peakFrom, ih hrest]
    | putWhole ok => simp [peakFrom, ih hrest]

/-- Total bytes recorded by the `allocChunk` events of a trace. -/
def allocSum (t : List Ev) : Nat :=
  (t.map (fun e => match e with | .allocChunk _ sz => sz | _ => 0)).sum

theorem peakFrom_allocs_append (l t : List Ev)
    (h : ∀ e ∈ l, ∃ p sz, e = Ev.allocChunk p sz) :
    ∀ cur, peakFrom cur (l ++ t) = peakFrom (cur + allocSum l) t := by
  induction l with
  | nil => intro cur; simp [allocSum]
  | cons e rest ih =>
    intro cur
    obtain ⟨p, sz, rfl⟩ := h e (List.mem_cons_self e rest)
    have hrest : ∀ x ∈ rest, ∃ p sz, x = Ev.allocChunk p sz := by
      intro x hx; exact h x (List.mem_cons_of_mem _ hx)
    rw [List.cons_append]
    simp only [peakFrom]
    rw [ih hrest (cur + sz)]
    have hsum : allocSum (Ev.allocChunk p sz :: rest) = sz + allocSum rest := by
      simp [allocSum]
    rw [hsum]
    have harith : cur + (sz + allocSum rest) = cur + sz + allocSum rest := by omega
    rw [harith]
    have hge : cur + sz + allocSum rest ≤ peakFrom (cur + sz + allocSum rest) t :=
      peakFrom_ge _ _
    exact Nat.max_eq_right (Nat.le_trans (by omega) hge)

theorem sum_partLen_full (c fs : Nat) :
    ∀ n, c * n ≤ fs → ((List.range n).map (partLen c fs)).sum = c * n := by
  intro n
  induction n with
  | zero => intro _; simp
  | succ m ih =>
    intro h
    have hms : c * (m + 1) = c * m + c := Nat.mul_succ c m
    rw [List.range_succ, List.map_append, List.sum_append]
    have hstep : c * m ≤ fs := by omega
    rw [ih hstep]
    have hlast : partLen c fs m = c := by
      simp only [partLen]
      have hcomm : m * c = c * m := Nat.mul_comm m c
      rw [hcomm]
      omega
    simp [hlast]
    omega

theorem sum_partLen (c fs n : Nat) (h1 : fs ≤ c * n) (h2 : c * n < fs + c) :
    ((List.range n).map (partLen c fs)).sum = fs := by
  cases n with
  | zero =>
    simp at h1
    simp [h1]
  | succ m =>
    have hms : c * (m + 1) = c * m + c := Nat.mul_succ c m
    rw [List.range_succ, List.map_append, List.sum_append]
    have hstep : c * m ≤ fs := by omega
    rw [sum_partLen_full c fs m hstep]
    have hlast : partLen c fs m = fs - c * m := by
      simp only [partLen]
      have hcomm : m * c = c * m := Nat.mul_comm m c
      rw [hcomm]
      omega
    simp [hlast]
    omega

theorem countP_replicate_not_running (n : Nat) :
    (List.replicate n TaskPhase.waiting).countP
      (fun p => decide (p = TaskPhase.running)) = 0 := by
  induction n with
  | zero => rfl
  | succ m ih => simp [List.replicate_succ, List.countP_cons, ih]

theorem poolStep_sum {s t : PoolState} (h : PoolStep s t) :
    t.sem + inFlight t = s.sem + inFlight s := by
  cases h with
  | acquire k l₁ l₂ =>
    simp [inFlight, List.countP_append, List.countP_cons]
    omega
  | release k l₁ l₂ =>
    simp [inFlight, List.countP_append, List.countP_cons]
    omega

theorem poolReachable_sum (c n : Nat) (st : PoolState)
    (h : PoolReachable (initPool c n) st) : st.sem + inFlight st = c := by
  induction h with
  | refl => simp [initPool, inFlight, countP_replicate_not_running]
  | tail _ hstep ih => rw [poolStep_sum hstep]; exact ih

/-- The chunk-read events of the concurrent pre-read loop. -/
def readEvsOf (s : Settings) (fileSize : Nat) : List Ev :=
  (List.range (totalChunksOf s fileSize)).map
    (fun i => Ev.allocChunk (i + 1) (partLen (s.getOptimalChunkSize fileSize) fileSize i))

/-- The buffer-release events at concurrent-orchestrator exit. -/
def freeEvsOf (s : Settings) (fileSize : Nat) : List Ev :=
  (List.range (totalChunksOf s fileSize)).map
    (fun i => Ev.freeChunk (i + 1) (partLen (s.getOptimalChunkSize fileSize) fileSize i))

/-- The `(PartNumber, ETag)` successes that the result scan collects, in
submission order. -/
def collectedParts (g : GatewayBehavior) (n : Nat) : List (Nat × Nat) :=
  (concurrentParts n).filterMap (fun pn => (g.partETag pn).map (fun e => (pn, e)))

/-- The failed part numbers that the result scan collects, in ascending
order. -/
def failedPartsOf (g : GatewayBehavior) (n : Nat) : List Nat :=
  (concurrentParts n).filter (fun pn => (g.partETag pn).isNone)

theorem concurrent_failure_branch (s : Settings) (g : GatewayBehavior)
    (fileSize : Nat) (finishOrder : List Nat)
    (hcreate : g.createOk = true)
    (hfail : failedPartsOf g (totalChunksOf s fileSize) ≠ []) :
    uploadLargeFileConcurrent s g fileSize finishOrder =
      { trace := (Ev.createSession true :: readEvsOf s fileSize ++
            finishOrder.map (fun pn => Ev.putPart pn (g.partETag pn).isSome)) ++
          Ev.abortCall g.abortOk :: freeEvsOf s fileSize
        outcome := .partsFailed (failedPartsOf g (totalChunksOf s fileSize))
        concurrency := s.getOptimalConcurrency (totalChunksOf s fileSize) } := by
  have hscan := scanResults_eq g (totalChunksOf s fileSize) 0
  simp only [Nat.zero_add] at hscan
  have hne : (failedPartsOf g (totalChunksOf s fileSize)).isEmpty = false := by
    cases hfe : failedPartsOf g (totalChunksOf s fileSize) with
    | nil => exact absurd hfe hfail
    | cons a t => rfl
  unfold uploadLargeFileConcurrent
  rw [hcreate]
  simp only [if_pos rfl, concurrentParts] at *
  rw [hscan]
  simp only [failedPartsOf, concurrentParts] at hne
  simp [hne, readEvsOf, freeEvsOf, failedPartsOf, concurrentParts]

theorem concurrent_success_branch (s : Settings) (g : GatewayBehavior)
    (fileSize : Nat) (finishOrder : List Nat)
    (hcreate : g.createOk = true)
    (hsucc : ∀ pn ∈ concurrentParts (totalChunksOf s fileSize),
      (g.partETag pn).isSome) :
    uploadLargeFileConcurrent s g fileSize finishOrder =
      if g.completeOk then
        { trace := (Ev.createSession true :: readEvsOf s fileSize ++
              finishOrder.map (fun pn => Ev.putPart pn (g.partETag pn).isSome)) ++
            Ev.completeCall (collectedParts g (totalChunksOf s fileSize)) true ::
              freeEvsOf s fileSize
          outcome := .ok
          concurrency := s.getOptimalConcurrency (totalChunksOf s fileSize) }
      else
        { trace := (Ev.createSession true :: readEvsOf s fileSize ++
              finishOrder.map (fun pn => Ev.putPart pn (g.partETag pn).isSome)) ++
            Ev.completeCall (collectedParts g (totalChunksOf s fileSize)) false ::
              Ev.abortCall g.abortOk :: freeEvsOf s fileSize
          outcome := .commitFailed
          concurrency := s.getOptimalConcurrency (totalChunksOf s fileSize) } := by
  have hscan := scanResults_eq g (totalChunksOf s fileSize) 0
  simp only [Nat.zero_add] at hscan
  have hempty : failedPartsOf g (totalChunksOf s fileSize) = [] :=
    filter_none_of_success g _ hsucc
  have hsort :
      (collectedParts g (totalChunksOf s fileSize)).mergeSort
          (fun a b => Nat.ble a.1 b.1) =
        collectedParts g (totalChunksOf s fileSize) :=
    mergeSort_of_sorted_parts g _ (pairwise_ble_range' _ 1) hsucc
  unfold uploadLargeFileConcurrent
  rw [hcreate]
  simp only [if_pos rfl, concurrentParts] at *
  rw [hscan]
  simp only [failedPartsOf, concurrentParts] at hempty
  rw [hempty]
  simp only [List.isEmpty_nil, if_pos rfl]
  simp only [collectedParts, concurrentParts] at hsort
  rw [hsort]
  cases hco : g.completeOk with
  | true =>
    simp [readEvsOf, freeEvsOf, collectedParts, concurrentParts]
  | false =>
    simp [readEvsOf, freeEvsOf, collectedParts, concurrentParts]

theorem filterMap_map_none {α β γ : Type} (f : β → Option γ) (g : α → β)
    (l : List α) (h : ∀ x, f (g x) = none) : (l.map g).filterMap f = [] := by
  induction l with
  | nil => rfl
  | cons x xs ih => simp [List.filterMap_cons, h, ih]

theorem completeManifests_eq_nil (t : List Ev)
    (h : countCompleteCalls t = 0) : completeManifests t = [] := by
  induction t with
  | nil => rfl
  | cons e rest ih =>
    rw [countCompleteCalls, List.countP_cons] at h
    cases e with
    | completeCall m ok => simp at h
    | createSession ok => exact ih (by simpa [countCompleteCalls] using h)
    | allocChunk p sz => exact ih (by simpa [countCompleteCalls] using h)
    | freeChunk p sz => exact ih (by simpa [countCompleteCalls] using h)
    | putPart p ok => exact ih (by simpa [countCompleteCalls] using h)
    | abortCall ok => exact ih (by simpa [countCompleteCalls] using h)
    | putWhole ok => exact ih (by simpa [countCompleteCalls] using h)

theorem streamingGo_trace_facts (g : GatewayBehavior) (c : Nat) :
    ∀ (r pn : Nat) (parts : List (Nat × Nat)),
      countCompleteCalls (streamingGo g c pn parts r).1 = 0 ∧
      countAborts (streamingGo g c pn parts r).1 = 0 ∧
      peakFrom 0 (streamingGo g c pn parts r).1 ≤ c := by
  intro r
  induction r using Nat.strong_induction_on with
  | _ r ih =>
    intro pn parts
    rw [streamingGo]
    by_cases hguard : c = 0 ∨ r = 0
    · rw [dif_pos hguard]
      exact ⟨rfl, rfl, Nat.zero_le c⟩
    · rw [dif_neg hguard]
      have hlt : r - min c r < r := by omega
      have hlen : min c r ≤ c := Nat.min_le_left c r
      cases hpe : g.partETag pn with
      | some e =>
        obtain ⟨h1, h2, h3⟩ := ih (r - min c r) hlt (pn + 1) (parts ++ [(pn, e)])
        refine ⟨?_, ?_, ?_⟩
        · simpa [countCompleteCalls, List.countP_cons] using h1
        · simpa [countAborts, List.countP_cons] using h2
        · simp only [peakFrom]
          have harith : 0 + min c r - min c r = 0 := by omega
          rw [harith]
          omega
      | none =>
        refine ⟨rfl, rfl, ?_⟩
        simp only [peakFrom]
        omega

theorem peakFrom_append_no_alloc (t : List Ev)
    (ht : ∀ p sz, Ev.allocChunk p sz ∉ t) :
    ∀ (l : List Ev) (cur : Nat), peakFrom cur (l ++ t) = peakFrom cur l := by
  intro l
  induction l with
  | nil =>
    intro cur
    rw [List.nil_append]
    exact peakFrom_no_alloc t ht cur
  | cons e rest ih =>
    intro cur
    rw [List.cons_append]
    cases e <;> simp only [peakFrom, ih]

theorem streamingGo_pair (g : GatewayBehavior) (c r pn : Nat)
    (parts parts' : List (Nat × Nat))
    (h : (streamingGo g c pn parts r).2 = Sum.inl parts') :
    streamingGo g c pn parts r = ((streamingGo g c pn parts r).1, Sum.inl parts') := by
  rw [← h]

theorem streaming_success_branch (s : Settings) (g : GatewayBehavior)
    (fileSize : Nat)
    (hcreate : g.createOk = true)
    (hc : 1 ≤ s.getOptimalChunkSize fileSize)
    (hsucc : ∀ pn ∈ concurrentParts (totalChunksOf s fileSize),
      (g.partETag pn).isSome) :
    ∃ (parts' : List (Nat × Nat)) (evs : List Ev),
      parts'.map Prod.fst = List.range' 1 (totalChunksOf s fileSize) ∧
      countCompleteCalls evs = 0 ∧ countAborts evs = 0 ∧
      uploadLargeFileStreaming s g fileSize =
        if g.completeOk then
          { trace := Ev.createSession true :: evs ++ [Ev.completeCall parts' true]
            outcome := .ok, concurrency := 1 }
        else
          { trace := Ev.createSession true ::
              evs ++ [Ev.completeCall parts' false, Ev.abortCall g.abortOk]
            outcome := .commitFailed, concurrency := 1 } := by
  have hcount : totalChunksOf s fileSize =
      (fileSize + s.getOptimalChunkSize fileSize - 1) / s.getOptimalChunkSize fileSize :=
    rfl
  obtain ⟨parts', hres, hfst⟩ :=
    streamingGo_success g (s.getOptimalChunkSize fileSize) hc fileSize 1 []
      (by
        intro j hj1 hj2
        apply hsucc
        rw [concurrentParts, List.mem_range'_1]
        rw [hcount]
        omega)
  refine ⟨parts', (streamingGo g (s.getOptimalChunkSize fileSize) 1 [] fileSize).1,
    ?_, ?_, ?_, ?_⟩
  · rw [hfst, hcount]; simp
  · exact (streamingGo_trace_facts g _ fileSize 1 []).1
  · exact (streamingGo_trace_facts g _ fileSize 1 []).2.1
  · have hpair := streamingGo_pair g (s.getOptimalChunkSize fileSize) fileSize 1 [] parts' hres
    unfold uploadLargeFileStreaming
    rw [hcreate]
    simp only [if_pos rfl]
    rw [hpair]
    simp

/-- A gateway on which every store call succeeds (part `pn` gets ETag token
`pn`). -/
def gAllOk : GatewayBehavior := { partETag := fun pn => some pn }

/-- A gateway on which every part upload succeeds but
`complete_multipart_upload` raises. -/
def gCommitFails : GatewayBehavior :=
  { partETag := fun pn => some pn, completeOk := false }

/-- A gateway on which part 3 raises and every other part succeeds. -/
def gPart3Fails : GatewayBehavior :=
  { partETag := fun pn => if pn = 3 then none else some pn }

/-- The two equal-threshold configuration used to refute the
"for every configuration" part of claim C8. -/
def cfgEqualThresholds : Settings :=
  { multipartThreshold := 100, streamingThreshold := 100 }

theorem countCompleteCalls_cons (e : Ev) (t : List Ev) :
    countCompleteCalls (e :: t) =
      (match e with | .completeCall _ _ => 1 | _ => 0) + countCompleteCalls t := by
  cases e <;> simp [countCompleteCalls, List.countP_cons] <;> omega

theorem countAborts_cons (e : Ev) (t : List Ev) :
    countAborts (e :: t) =
      (match e with | .abortCall _ => 1 | _ => 0) + countAborts t := by
  cases e <;> simp [countAborts, List.countP_cons] <;> omega

theorem countCompleteCalls_nil : countCompleteCalls [] = 0 := rfl

theorem countAborts_nil : countAborts [] = 0 := rfl

theorem countCompleteCalls_append (l t : List Ev) :
    countCompleteCalls (l ++ t) = countCompleteCalls l + countCompleteCalls t :=
  List.countP_append _ _ _

theorem countAborts_append (l t : List Ev) :
    countAborts (l ++ t) = countAborts l + countAborts t :=
  List.countP_append _ _ _

theorem countCompleteCalls_readEvs (s : Settings) (fileSize : Nat) :
    countCompleteCalls (readEvsOf s fileSize) = 0 :=
  countP_map_false _ _ _ (fun _ => rfl)

theorem countCompleteCalls_freeEvs (s : Settings) (fileSize : Nat) :
    countCompleteCalls (freeEvsOf s fileSize) = 0 :=
  countP_map_false _ _ _ (fun _ => rfl)

theorem countCompleteCalls_putEvs (g : GatewayBehavior) (fo : List Nat) :
    countCompleteCalls
      (fo.map (fun pn => Ev.putPart pn (g.partETag pn).isSome)) = 0 :=
  countP_map_false _ _ _ (fun _ => rfl)

theorem countAborts_readEvs (s : Settings) (fileSize : Nat) :
    countAborts (readEvsOf s fileSize) = 0 :=
  countP_map_false _ _ _ (fun _ => rfl)

theorem countAborts_freeEvs (s : Settings) (fileSize : Nat) :
    countAborts (freeEvsOf s fileSize) = 0 :=
  countP_map_false _ _ _ (fun _ => rfl)

theorem countAborts_putEvs (g : GatewayBehavior) (fo : List Nat) :
    countAborts (fo.map (fun pn => Ev.putPart pn (g.partETag pn).isSome)) = 0 :=
  countP_map_false _ _ _ (fun _ => rfl)

theorem completeManifests_nil : completeManifests [] = [] := rfl

theorem completeManifests_append (l t : List Ev) :
    completeManifests (l ++ t) = completeManifests l ++ completeManifests t :=
  List.filterMap_append _ _ _

theorem completeManifests_cons_create (ok : Bool) (t : List Ev) :
    completeManifests (Ev.createSession ok :: t) = completeManifests t := rfl

theorem completeManifests_cons_abort (ok : Bool) (t : List Ev) :
    completeManifests (Ev.abortCall ok :: t) = completeManifests t := rfl

theorem completeManifests_cons_complete (M : List (Nat × Nat)) (b : Bool)
    (t : List Ev) :
    completeManifests (Ev.completeCall M b :: t) = M :: completeManifests t :=
  rfl

theorem completeManifests_readEvs (s : Settings) (fileSize : Nat) :
    completeManifests (readEvsOf s fileSize) = [] :=
  filterMap_map_none _ _ _ (fun _ => rfl)

theorem completeManifests_freeEvs (s : Settings) (fileSize : Nat) :
    completeManifests (freeEvsOf s fileSize) = [] :=
  filterMap_map_none _ _ _ (fun _ => rfl)

theorem completeManifests_putEvs (g : GatewayBehavior) (fo : List Nat) :
    completeManifests
      (fo.map (fun pn => Ev.putPart pn (g.partETag pn).isSome)) = [] :=
  filterMap_map_none _ _ _ (fun _ => rfl)

theorem isSome_of_filter_isNone_nil (g : GatewayBehavior) (n : Nat)
    (h : failedPartsOf g n = []) :
    ∀ pn ∈ concurrentParts n, (g.partETag pn).isSome := by
  intro pn hpn
  rw [failedPartsOf, List.filter_eq_nil_iff] at h
  have := h pn hpn
  cases hpe : g.partETag pn with
  | none => rw [hpe] at this; simp at this
  | some e => rfl

theorem no_alloc_freeEvs (s : Settings) (fileSize : Nat) :
    ∀ p sz, Ev.allocChunk p sz ∉ freeEvsOf s fileSize := by
  intro p sz h
  rw [freeEvsOf, List.mem_map] at h
  obtain ⟨i, _, h⟩ := h
  exact Ev.noConfusion h

theorem concurrent_peak (s : Settings) (g : GatewayBehavior) (fileSize : Nat)
    (finishOrder : List Nat)
    (hcreate : g.createOk = true) (hc : 1 ≤ s.getOptimalChunkSize fileSize) :
    peakBuffered (uploadLargeFileConcurrent s g fileSize finishOrder).trace =
      fileSize := by
  have hread : ∀ e ∈ readEvsOf s fileSize, ∃ p sz, e = Ev.allocChunk p sz := by
    intro e he
    rw [readEvsOf, List.mem_map] at he
    obtain ⟨i, _, rfl⟩ := he
    exact ⟨_, _, rfl⟩
  have hsum : allocSum (readEvsOf s fileSize) = fileSize := by
    rw [readEvsOf, allocSum, List.map_map]
    have hmaps : ((fun e => match e with | .allocChunk _ sz => sz | _ => 0) ∘
        (fun i => Ev.allocChunk (i + 1)
          (partLen (s.getOptimalChunkSize fileSize) fileSize i))) =
        fun i => partLen (s.getOptimalChunkSize fileSize) fileSize i := rfl
    rw [hmaps]
    obtain ⟨hb1, hb2⟩ := ceil_bounds (s.getOptimalChunkSize fileSize) fileSize hc
    exact sum_partLen _ _ _ hb1 hb2
  have main : ∀ (tail : List Ev), (∀ p sz, Ev.allocChunk p sz ∉ tail) →
      peakFrom 0 ((Ev.createSession true :: readEvsOf s fileSize ++
        finishOrder.map (fun pn => Ev.putPart pn (g.partETag pn).isSome)) ++ tail) =
        fileSize := by
    intro tail htail
    have hnotail : ∀ p sz, Ev.allocChunk p sz ∉
        (finishOrder.map (fun pn => Ev.putPart pn (g.partETag pn).isSome) ++ tail) := by
      intro p sz hmem
      rcases List.mem_append.mp hmem with hput | ht
      · rw [List.mem_map] at hput
        obtain ⟨pn, _, hput⟩ := hput
        exact Ev.noConfusion hput
      · exact htail p sz ht
    rw [List.append_assoc, List.cons_append]
    simp only [peakFrom]
    rw [peakFrom_allocs_append _ _ hread]
    rw [peakFrom_no_alloc _ hnotail]
    rw [hsum]
    omega
  by_cases hfp : failedPartsOf g (totalChunksOf s fileSize) = []
  · have hsucc := isSome_of_filter_isNone_nil g _ hfp
    rw [concurrent_success_branch s g fileSize finishOrder hcreate hsucc]
    cases hco : g.completeOk with
    | true =>
      simp only [if_pos rfl]
      apply main
      intro p sz hmem
      rcases List.mem_cons.mp hmem with heq | hmem'
      · exact Ev.noConfusion heq
      · exact no_alloc_freeEvs s fileSize p sz hmem'
    | false =>
      simp only [Bool.false_eq_true, if_false]
      apply main
      intro p sz hmem
      rcases List.mem_cons.mp hmem with heq | hmem'
      · exact Ev.noConfusion heq
      · rcases List.mem_cons.mp hmem' with heq2 | hmem''
        · exact Ev.noConfusion heq2
        · exact no_alloc_freeEvs s fileSize p sz hmem''
  · rw [concurrent_failure_branch s g fileSize finishOrder hcreate hfp]
    apply main
    intro p sz hmem
    rcases List.mem_cons.mp hmem with heq | hmem'
    · exact Ev.noConfusion heq
    · exact no_alloc_freeEvs s fileSize p sz hmem'

theorem streaming_peak (s : Settings) (g : GatewayBehavior) (fileSize : Nat) :
    peakBuffered (uploadLargeFileStreaming s g fileSize).trace ≤
      s.getOptimalChunkSize fileSize := by
  unfold uploadLargeFileStreaming
  cases hcr : g.createOk with
  | false =>
    simp [peakBuffered, peakFrom]
  | true =>
    simp only [if_pos rfl]
    have hfacts := streamingGo_trace_facts g (s.getOptimalChunkSize fileSize)
      fileSize 1 []
    rcases hsg : streamingGo g (s.getOptimalChunkSize fileSize) 1 [] fileSize
      with ⟨evs, res⟩
    rw [hsg] at hfacts
    have hpeak : peakFrom 0 evs ≤ s.getOptimalChunkSize fileSize := hfacts.2.2
    have hstep : ∀ (tail : List Ev), (∀ p sz, Ev.allocChunk p sz ∉ tail) →
        peakBuffered ((Ev.createSession true :: evs) ++ tail) ≤
          s.getOptimalChunkSize fileSize := by
      intro tail htail
      rw [peakBuffered, peakFrom_append_no_alloc tail htail]
      simp only [peakFrom]
      rw [Nat.zero_max]
      exact hpeak
    cases res with
    | inl parts =>
      cases hco : g.completeOk with
      | true =>
        simp only [if_pos rfl]
        apply hstep
        intro p sz hmem
        rcases List.mem_cons.mp hmem with heq | hmem'
        · exact Ev.noConfusion heq
        · exact absurd hmem' (List.not_mem_nil _)
      | false =>
        simp only [Bool.false_eq_true, if_false]
        apply hstep
        intro p sz hmem
        rcases List.mem_cons.mp hmem with heq | hmem'
        · exact Ev.noConfusion heq
        · rcases List.mem_cons.mp hmem' with heq2 | hmem''
          · exact Ev.noConfusion heq2
          · exact absurd hmem'' (List.not_mem_nil _)
    | inr pn =>
      apply hstep
      intro p sz hmem
      rcases List.mem_cons.mp hmem with heq | hmem'
      · exact Ev.noConfusion heq
      · exact absurd hmem' (List.not_mem_nil _)

/-! ### Claim theorems -/

/-- C9: during any concurrent-multipart upload, the number of simultaneously
in-flight part uploads never exceeds the plan's concurrency level
(`settings.get_optimal_concurrency` applied to the chunk count), in every
state reachable under the semaphore-step semantics of
`asyncio.Semaphore(concurrency)` guarding `upload_with_semaphore`. -/
theorem C9_semaphore_bounds_in_flight (s : Settings) (n : Nat) (st : PoolState)
    (h : PoolReachable (initPool (s.getOptimalConcurrency n) n) st) :
    inFlight st ≤ s.getOptimalConcurrency n := by
  have hsum := poolReachable_sum (s.getOptimalConcurrency n) n st h
  omega

/-- Witness for C9: a 6-part plan under the default configuration
(concurrency 3) with two tasks running after two acquire steps. -/
theorem C9_semaphore_bounds_in_flight_witness :
    PoolReachable (initPool (({} : Settings).getOptimalConcurrency 6) 6)
      ⟨1, [.running, .running, .waiting, .waiting, .waiting, .waiting]⟩ ∧
    inFlight ⟨1, [.running, .running, .waiting, .waiting, .waiting, .waiting]⟩ ≤
      ({} : Settings).getOptimalConcurrency 6 := by
  have hr : PoolReachable (initPool (({} : Settings).getOptimalConcurrency 6) 6)
      ⟨1, [.running, .running, .waiting, .waiting, .waiting, .waiting]⟩ := by
    have s1 : PoolStep (initPool (({} : Settings).getOptimalConcurrency 6) 6)
        ⟨2, [.running, .waiting, .waiting, .waiting, .waiting, .waiting]⟩ :=
      PoolStep.acquire 2 []
        [.waiting, .waiting, .waiting, .waiting, .waiting]
    have s2 : PoolStep
        ⟨2, [.running, .waiting, .waiting, .waiting, .waiting, .waiting]⟩
        ⟨1, [.running, .running, .waiting, .waiting, .waiting, .waiting]⟩ :=
      PoolStep.acquire 1 [.running] [.waiting, .waiting, .waiting, .waiting]
    exact PoolReachable.tail (PoolReachable.tail PoolReachable.refl s1) s2
  exact ⟨hr, C9_semaphore_bounds_in_flight {} 6 _ hr⟩

/-- C4 counterexample: `calculate_chunks` on a declared total size of 0
(with the size-band chunk size) yields `total_chunks = 0`, violating the
claimed `total_parts >= 1`. -/
theorem C4_counterexample :
    (calculateChunks {} 0 none).totalChunks = 0 ∧
    ¬ (1 ≤ (calculateChunks {} 0 none).totalChunks) := by
  decide

/-- C4 (amended): for every ChunkPlan derived from a positive declared total
size (the claim fails only at `total_size = 0`, where `total_parts = 0`),
`chunk_size*(total_parts-1) < total_size <= chunk_size*total_parts`,
`total_parts >= 1`, and the derived concurrency level is at least 1
(given positive configured chunk-size bands and a positive configured
concurrency maximum, as in the defaults). -/
theorem C4_chunk_plan_invariants (s : Settings) (fileSize : Nat)
    (hfs : 1 ≤ fileSize)
    (hsmall : 1 ≤ s.chunkSizeSmall) (hmed : 1 ≤ s.chunkSizeMedium)
    (hlarge : 1 ≤ s.chunkSizeLarge) (hmcu : 1 ≤ s.maxConcurrentUploads) :
    ((calculateChunks s fileSize none).chunkSize : ℤ) *
        (((calculateChunks s fileSize none).totalChunks : ℤ) - 1) <
      (fileSize : ℤ) ∧
    (fileSize : ℤ) ≤ ((calculateChunks s fileSize none).chunkSize : ℤ) *
        ((calculateChunks s fileSize none).totalChunks : ℤ) ∧
    1 ≤ (calculateChunks s fileSize none).totalChunks ∧
    1 ≤ s.getOptimalConcurrency (calculateChunks s fileSize none).totalChunks := by
  have hc : 1 ≤ s.getOptimalChunkSize fileSize := by
    unfold Settings.getOptimalChunkSize
    split_ifs <;> assumption
  simp only [calculateChunks, Option.getD_none]
  obtain ⟨hb1, hb2⟩ := ceil_bounds (s.getOptimalChunkSize fileSize) fileSize hc
  set c := s.getOptimalChunkSize fileSize with hcdef
  set q := (fileSize + c - 1) / c with hqdef
  have hq1 : 1 ≤ q := by
    rcases Nat.eq_zero_or_pos q with hq0 | hq0
    · rw [hq0] at hb1; simp at hb1; omega
    · exact hq0
  have hb1' : (fileSize : ℤ) ≤ (c : ℤ) * (q : ℤ) := by exact_mod_cast hb1
  have hb2' : (c : ℤ) * (q : ℤ) < (fileSize : ℤ) + (c : ℤ) := by exact_mod_cast hb2
  have hc' : (1 : ℤ) ≤ (c : ℤ) := by exact_mod_cast hc
  refine ⟨?_, hb1', hq1, ?_⟩
  · have : (c : ℤ) * ((q : ℤ) - 1) = (c : ℤ) * (q : ℤ) - (c : ℤ) := by ring
    rw [this]
    omega
  · unfold Settings.getOptimalConcurrency
    split_ifs <;> omega

/-- Witness for C4 (amended) at the default configuration with a 1-byte
file. -/
theorem C4_chunk_plan_invariants_witness :
    ((1 : Nat) ≤ 1 ∧ 1 ≤ ({} : Settings).chunkSizeSmall ∧
      1 ≤ ({} : Settings).chunkSizeMedium ∧ 1 ≤ ({} : Settings).chunkSizeLarge ∧
      1 ≤ ({} : Settings).maxConcurrentUploads) ∧
    (((calculateChunks {} 1 none).chunkSize : ℤ) *
        (((calculateChunks {} 1 none).totalChunks : ℤ) - 1) < (1 : ℤ) ∧
      ((1 : Nat) : ℤ) ≤ ((calculateChunks {} 1 none).chunkSize : ℤ) *
        ((calculateChunks {} 1 none).totalChunks : ℤ) ∧
      1 ≤ (calculateChunks {} 1 none).totalChunks ∧
      1 ≤ ({} : Settings).getOptimalConcurrency
        (calculateChunks {} 1 none).totalChunks) :=
  ⟨⟨by decide, by decide, by decide, by decide, by decide⟩,
    C4_chunk_plan_invariants {} 1 (by decide) (by decide) (by decide)
      (by decide) (by decide)⟩

/-- C5 counterexample: for a 600 MB upload under the default configuration
the plan has 6 parts, but the concurrency the orchestrator computes is 3
(the limited-concurrency band for 4-10 chunks), not
`min(max_concurrent_uploads, 6) = 5` as claimed. -/
theorem C5_counterexample :
    (uploadLargeFileConcurrent {} gAllOk 629145600 (List.range' 1 6)).concurrency ≠
      min ({} : Settings).maxConcurrentUploads (totalChunksOf {} 629145600) := by
  decide

/-- C5 (amended): a 600 MB upload under the default configuration is planned
as 6 parts of the 100 MB medium band, and the orchestrator's concurrency
level is `min 3 6 = 3`, the limited-concurrency ladder rung for plans of
4-10 parts. -/
theorem C5_plan_600MB :
    totalChunksOf {} 629145600 = 6 ∧
    ({} : Settings).getOptimalChunkSize 629145600 = 100 * 1024 * 1024 ∧
    (uploadLargeFileConcurrent {} gAllOk 629145600 (List.range' 1 6)).concurrency =
      min 3 6 := by
  decide

/-- C8 counterexample: with the thresholds configured equal
(`multipart_threshold = streaming_threshold = 100`), a size exactly equal
to `multipart_threshold` is classified streaming-multipart, not
concurrent-multipart as the claim asserts for every configuration. -/
theorem C8_counterexample :
    chooseStrategy cfgEqualThresholds cfgEqualThresholds.multipartThreshold ≠
      Strategy.concurrentMultipart := by
  decide

/-- C8 (amended): whenever `multipart_threshold < streaming_threshold`
(as in the default configuration), a size exactly equal to
`multipart_threshold` is classified concurrent-multipart and a size exactly
equal to `streaming_threshold` is classified streaming-multipart. -/
theorem C8_threshold_boundaries (s : Settings)
    (h : s.multipartThreshold < s.streamingThreshold) :
    chooseStrategy s s.multipartThreshold = .concurrentMultipart ∧
    chooseStrategy s s.streamingThreshold = .streamingMultipart := by
  unfold chooseStrategy Settings.shouldUseMultipart Settings.shouldUseStreaming
  constructor
  · have h1 : decide (s.multipartThreshold ≤ s.multipartThreshold) = true := by
      simp
    have h2 : decide (s.streamingThreshold ≤ s.multipartThreshold) = false := by
      simp; omega
    rw [h1, h2]
    rfl
  · have h1 : decide (s.multipartThreshold ≤ s.streamingThreshold) = true := by
      simp; omega
    have h2 : decide (s.streamingThreshold ≤ s.streamingThreshold) = true := by
      simp
    rw [h1, h2]
    rfl

/-- Witness for C8 (amended) at the default thresholds (100 MB / 2 GB). -/
theorem C8_threshold_boundaries_witness :
    ({} : Settings).multipartThreshold < ({} : Settings).streamingThreshold ∧
    (chooseStrategy {} (({} : Settings).multipartThreshold) =
        .concurrentMultipart ∧
      chooseStrategy {} (({} : Settings).streamingThreshold) =
        .streamingMultipart) :=
  ⟨by decide, C8_threshold_boundaries {} (by decide)⟩

/-- C10 counterexample: on the file name `a.exe` with a size one byte over
the cap, the claimed condition for `FileTypeNotAllowedError` holds (there
is a dot and `exe` is not allowed), yet validation raises
`FileSizeExceedError` instead, because the size check runs first. -/
theorem C10_counterexample :
    validateFile {} ("a.exe".toList) (({} : Settings).maxFileSize + 1) =
        some .fileSizeExceed ∧
    ('.' ∈ "a.exe".toList ∧
      lower (extAfterLastDot ("a.exe".toList)) ∉
        ({} : Settings).allowedExtensionsList) ∧
    some ValidationErr.fileSizeExceed ≠ some ValidationErr.fileTypeNotAllowed := by
  decide

/-- C10 (amended): validation raises `FileSizeExceedError` iff the size
strictly exceeds the cap (equality is accepted); it raises
`FileTypeNotAllowedError` iff the size check passed, the name contains a
dot, and the lowercased extension after the last dot is not allowed; it
passes iff the size is within the cap and the name either has no dot or
has an allowed extension (so a dotless name always passes the type
check). -/
theorem C10_validation_characterization (s : Settings) (filename : Chars)
    (fileSize : Nat) :
    (validateFile s filename fileSize = some .fileSizeExceed ↔
      s.maxFileSize < fileSize) ∧
    (validateFile s filename fileSize = some .fileTypeNotAllowed ↔
      (fileSize ≤ s.maxFileSize ∧ '.' ∈ filename ∧
        lower (extAfterLastDot filename) ∉ s.allowedExtensionsList)) ∧
    (validateFile s filename fileSize = none ↔
      (fileSize ≤ s.maxFileSize ∧ ('.' ∉ filename ∨
        lower (extAfterLastDot filename) ∈ s.allowedExtensionsList))) := by
  unfold validateFile
  split_ifs with h1 h2 h3
  · refine ⟨?_, ?_, ?_⟩ <;> simp <;> omega
  · refine ⟨?_, ?_, ?_⟩ <;> simp [h3] <;> omega
  · refine ⟨?_, ?_, ?_⟩ <;> simp [h2, h3] <;> omega
  · refine ⟨?_, ?_, ?_⟩ <;> simp [h2] <;> omega

/-- C7: a call to `upload_single_file` whose file has a disallowed extension
or whose size exceeds the hard cap fails with the validation error surfaced
as a `success=False` response, before any network interaction: the trace of
store calls is empty (no session, no gateway call of any kind). -/
theorem C7_validation_rejects_before_network (s : Settings) (g : GatewayBehavior)
    (finishOrder : List Nat) (filename : Chars) (fileSize : Nat)
    (h : s.maxFileSize < fileSize ∨
      ('.' ∈ filename ∧
        lower (extAfterLastDot filename) ∉ s.allowedExtensionsList)) :
    (uploadSingleFile s g finishOrder filename fileSize).2 = [] ∧
    ∃ e, (uploadSingleFile s g finishOrder filename fileSize).1 =
      SingleOutcome.validationFailed e := by
  have hval : ∃ e, validateFile s filename fileSize = some e := by
    unfold validateFile
    rcases h with hsize | ⟨hdot, hext⟩
    · rw [if_pos hsize]; exact ⟨_, rfl⟩
    · by_cases hsize : s.maxFileSize < fileSize
      · rw [if_pos hsize]; exact ⟨_, rfl⟩
      · rw [if_neg hsize, if_pos hdot, if_neg hext]; exact ⟨_, rfl⟩
  obtain ⟨e, he⟩ := hval
  unfold uploadSingleFile
  rw [he]
  exact ⟨rfl, e, rfl⟩

/-- Witness for C7: a 10-byte `virus.exe` under the default configuration is
rejected with no store call. -/
theorem C7_validation_rejects_before_network_witness :
    (({} : Settings).maxFileSize < 10 ∨
      ('.' ∈ "virus.exe".toList ∧
        lower (extAfterLastDot ("virus.exe".toList)) ∉
          ({} : Settings).allowedExtensionsList)) ∧
    ((uploadSingleFile {} gAllOk [] ("virus.exe".toList) 10).2 = [] ∧
      ∃ e, (uploadSingleFile {} gAllOk [] ("virus.exe".toList) 10).1 =
        SingleOutcome.validationFailed e) :=
  ⟨by decide,
    C7_validation_rejects_before_network {} gAllOk [] ("virus.exe".toList) 10
      (by decide)⟩

/-- C1: in a concurrent-multipart upload where at least one part fails, the
orchestrator still resolves every part attempt (a `putPart` event for every
planned part is in the trace, whatever the completion order), never calls
`complete`, calls `abort` exactly once, and surfaces a single aggregate
failure carrying exactly the failed part numbers; the partial successes are
not committed. -/
theorem C1_part_failure_full_join_abort_once (s : Settings)
    (g : GatewayBehavior) (fileSize : Nat) (finishOrder : List Nat)
    (hcreate : g.createOk = true)
    (hperm : finishOrder.Perm (concurrentParts (totalChunksOf s fileSize)))
    (hfail : ∃ pn ∈ concurrentParts (totalChunksOf s fileSize),
      g.partETag pn = none) :
    (∀ pn ∈ concurrentParts (totalChunksOf s fileSize),
      Ev.putPart pn (g.partETag pn).isSome ∈
        (uploadLargeFileConcurrent s g fileSize finishOrder).trace) ∧
    countCompleteCalls
      (uploadLargeFileConcurrent s g fileSize finishOrder).trace = 0 ∧
    countAborts (uploadLargeFileConcurrent s g fileSize finishOrder).trace = 1 ∧
    (uploadLargeFileConcurrent s g fileSize finishOrder).outcome =
      .partsFailed ((concurrentParts (totalChunksOf s fileSize)).filter
        (fun pn => (g.partETag pn).isNone)) := by
  obtain ⟨pn0, hpn0mem, hpn0⟩ := hfail
  have hfp : failedPartsOf g (totalChunksOf s fileSize) ≠ [] := by
    apply List.ne_nil_of_mem (a := pn0)
    rw [failedPartsOf, List.mem_filter]
    exact ⟨hpn0mem, by rw [hpn0]; rfl⟩
  rw [concurrent_failure_branch s g fileSize finishOrder hcreate hfp]
  refine ⟨?_, ?_, ?_, rfl⟩
  · intro pn hpn
    apply List.mem_append_left
    apply List.mem_append_right
    rw [List.mem_map]
    exact ⟨pn, hperm.mem_iff.mpr hpn, rfl⟩
  · simp only [countCompleteCalls_append, countCompleteCalls_cons,
      countCompleteCalls_readEvs, countCompleteCalls_freeEvs,
      countCompleteCalls_putEvs]
  · simp only [countAborts_append, countAborts_cons, countAborts_readEvs,
      countAborts_freeEvs, countAborts_putEvs]

/-- Witness for C1: a 250 MB file (5 parts of the 50 MB small band) where
part 3 fails and the parts finish in the order 2, 4, 1, 5, 3. -/
theorem C1_part_failure_full_join_abort_once_witness :
    (gPart3Fails.createOk = true ∧
      ([2, 4, 1, 5, 3] : List Nat).Perm
        (concurrentParts (totalChunksOf {} 262144000)) ∧
      ∃ pn ∈ concurrentParts (totalChunksOf {} 262144000),
        gPart3Fails.partETag pn = none) ∧
    ((∀ pn ∈ concurrentParts (totalChunksOf {} 262144000),
        Ev.putPart pn (gPart3Fails.partETag pn).isSome ∈
          (uploadLargeFileConcurrent {} gPart3Fails 262144000
            [2, 4, 1, 5, 3]).trace) ∧
      countCompleteCalls
        (uploadLargeFileConcurrent {} gPart3Fails 262144000
          [2, 4, 1, 5, 3]).trace = 0 ∧
      countAborts
        (uploadLargeFileConcurrent {} gPart3Fails 262144000
          [2, 4, 1, 5, 3]).trace = 1 ∧
      (uploadLargeFileConcurrent {} gPart3Fails 262144000
          [2, 4, 1, 5, 3]).outcome =
        .partsFailed ((concurrentParts (totalChunksOf {} 262144000)).filter
          (fun pn => (gPart3Fails.partETag pn).isNone))) :=
  ⟨⟨rfl, by decide, by decide⟩,
    C1_part_failure_full_join_abort_once {} gPart3Fails 262144000
      [2, 4, 1, 5, 3] rfl (by decide) (by decide)⟩

/-- C2 counterexample: a 150 MB concurrent upload (3 parts, all successful)
whose `complete` call fails: the commit error is surfaced, but the session
is NOT left un-aborted — the `except` block around the whole attempt calls
`abort_multipart_upload`, so the abort count is nonzero, contradicting the
claim. -/
theorem C2_counterexample :
    (uploadLargeFileConcurrent {} gCommitFails 157286400
        (List.range' 1 3)).outcome = Outcome.commitFailed ∧
    countAborts (uploadLargeFileConcurrent {} gCommitFails 157286400
        (List.range' 1 3)).trace ≠ 0 := by
  have hb := concurrent_success_branch {} gCommitFails 157286400
    (List.range' 1 3) rfl (by decide)
  rw [hb]
  simp only [show gCommitFails.completeOk = false from rfl,
    Bool.false_eq_true, if_false]
  refine ⟨by trivial, ?_⟩
  simp only [countAborts_append, countAborts_cons, countAborts_nil,
    countAborts_readEvs, countAborts_freeEvs, countAborts_putEvs]
  omega

/-- C2 (amended): when every part succeeds and the `complete` call itself
fails, both orchestrators surface the commit error without retrying the
commit (exactly one `complete` attempt), but — contrary to the claim — the
session is not left alone: the surrounding `except` block issues exactly
one best-effort `abort` before re-raising. -/
theorem C2_commit_failure_behavior (s : Settings) (g : GatewayBehavior)
    (fileSize : Nat) (finishOrder : List Nat)
    (hcreate : g.createOk = true)
    (hcomplete : g.completeOk = false)
    (hc : 1 ≤ s.getOptimalChunkSize fileSize)
    (hsucc : ∀ pn ∈ concurrentParts (totalChunksOf s fileSize),
      (g.partETag pn).isSome) :
    ((uploadLargeFileConcurrent s g fileSize finishOrder).outcome =
        .commitFailed ∧
      countAborts (uploadLargeFileConcurrent s g fileSize finishOrder).trace = 1 ∧
      countCompleteCalls
        (uploadLargeFileConcurrent s g fileSize finishOrder).trace = 1) ∧
    ((uploadLargeFileStreaming s g fileSize).outcome = .commitFailed ∧
      countAborts (uploadLargeFileStreaming s g fileSize).trace = 1 ∧
      countCompleteCalls (uploadLargeFileStreaming s g fileSize).trace = 1) := by
  constructor
  · rw [concurrent_success_branch s g fileSize finishOrder hcreate hsucc]
    rw [hcomplete]
    simp only [Bool.false_eq_true, if_false]
    refine ⟨by trivial, ?_, ?_⟩
    · simp only [countAborts_append, countAborts_cons, countAborts_nil,
        countAborts_readEvs, countAborts_freeEvs, countAborts_putEvs]
    · simp only [countCompleteCalls_append, countCompleteCalls_cons,
        countCompleteCalls_nil, countCompleteCalls_readEvs,
        countCompleteCalls_freeEvs, countCompleteCalls_putEvs]
  · obtain ⟨parts', evs, hfst, hcc, hca, heq⟩ :=
      streaming_success_branch s g fileSize hcreate hc hsucc
    rw [heq, hcomplete]
    simp only [Bool.false_eq_true, if_false]
    refine ⟨by trivial, ?_, ?_⟩
    · simp only [countAborts_append, countAborts_cons, countAborts_nil, hca]
    · simp only [countCompleteCalls_append, countCompleteCalls_cons,
        countCompleteCalls_nil, hcc]

/-- Witness for C2 (amended): a 150 MB file, all 3 parts succeed, commit
fails, parts finishing in submission order. -/
theorem C2_commit_failure_behavior_witness :
    (gCommitFails.createOk = true ∧ gCommitFails.completeOk = false ∧
      1 ≤ ({} : Settings).getOptimalChunkSize 157286400 ∧
      ∀ pn ∈ concurrentParts (totalChunksOf {} 157286400),
        (gCommitFails.partETag pn).isSome) ∧
    (((uploadLargeFileConcurrent {} gCommitFails 157286400
          (List.range' 1 3)).outcome = .commitFailed ∧
        countAborts (uploadLargeFileConcurrent {} gCommitFails 157286400
          (List.range' 1 3)).trace = 1 ∧
        countCompleteCalls (uploadLargeFileConcurrent {} gCommitFails 157286400
          (List.range' 1 3)).trace = 1) ∧
      ((uploadLargeFileStreaming {} gCommitFails 157286400).outcome =
          .commitFailed ∧
        countAborts (uploadLargeFileStreaming {} gCommitFails 157286400).trace = 1 ∧
        countCompleteCalls
          (uploadLargeFileStreaming {} gCommitFails 157286400).trace = 1)) :=
  ⟨⟨rfl, rfl, by decide, by decide⟩,
    C2_commit_failure_behavior {} gCommitFails 157286400 (List.range' 1 3)
      rfl rfl (by decide) (by decide)⟩

/-- C3: when every part succeeds, the manifest passed to `complete` (by
either orchestrator) lists exactly the part numbers `1, 2, ..., total_parts`
in strictly ascending, gap-free order, for every order in which the
concurrent part uploads may have finished. -/
theorem C3_manifest_sorted_gapfree (s : Settings) (g : GatewayBehavior)
    (fileSize : Nat) (finishOrder : List Nat)
    (hcreate : g.createOk = true)
    (hperm : finishOrder.Perm (concurrentParts (totalChunksOf s fileSize)))
    (hc : 1 ≤ s.getOptimalChunkSize fileSize)
    (hsucc : ∀ pn ∈ concurrentParts (totalChunksOf s fileSize),
      (g.partETag pn).isSome) :
    (completeManifests
        (uploadLargeFileConcurrent s g fileSize finishOrder).trace).map
      (List.map Prod.fst) = [List.range' 1 (totalChunksOf s fileSize)] ∧
    (completeManifests (uploadLargeFileStreaming s g fileSize).trace).map
      (List.map Prod.fst) = [List.range' 1 (totalChunksOf s fileSize)] := by
  have hfst : (collectedParts g (totalChunksOf s fileSize)).map Prod.fst =
      List.range' 1 (totalChunksOf s fileSize) :=
    filterMap_fst_of_success g _ hsucc
  constructor
  · rw [concurrent_success_branch s g fileSize finishOrder hcreate hsucc]
    cases hco : g.completeOk with
    | true =>
      simp only [reduceIte]
      simp only [completeManifests_append, completeManifests_cons_create,
        completeManifests_cons_complete, completeManifests_readEvs,
        completeManifests_freeEvs, completeManifests_putEvs]
      simp [hfst]
    | false =>
      simp only [Bool.false_eq_true, if_false, completeManifests_append,
        completeManifests_cons_create, completeManifests_cons_complete,
        completeManifests_cons_abort, completeManifests_readEvs,
        completeManifests_freeEvs, completeManifests_putEvs]
      simp [hfst]
  · obtain ⟨parts', evs, hfst', hcc, hca, heq⟩ :=
      streaming_success_branch s g fileSize hcreate hc hsucc
    have hevs : completeManifests evs = [] := completeManifests_eq_nil evs hcc
    rw [heq]
    cases hco : g.completeOk with
    | true =>
      simp only [reduceIte]
      simp only [completeManifests_append, completeManifests_cons_create,
        completeManifests_cons_complete, completeManifests_cons_abort,
        completeManifests_nil, hevs]
      simp [hfst']
    | false =>
      simp only [Bool.false_eq_true, if_false, completeManifests_append,
        completeManifests_cons_create, completeManifests_cons_complete,
        completeManifests_cons_abort, completeManifests_nil, hevs]
      simp [hfst']

/-- Witness for C3: a 150 MB file (3 parts), all parts succeeding, finishing
in the order 2, 3, 1. -/
theorem C3_manifest_sorted_gapfree_witness :
    (gAllOk.createOk = true ∧
      ([2, 3, 1] : List Nat).Perm (concurrentParts (totalChunksOf {} 157286400)) ∧
      1 ≤ ({} : Settings).getOptimalChunkSize 157286400 ∧
      ∀ pn ∈ concurrentParts (totalChunksOf {} 157286400),
        (gAllOk.partETag pn).isSome) ∧
    ((completeManifests
        (uploadLargeFileConcurrent {} gAllOk 157286400 [2, 3, 1]).trace).map
      (List.map Prod.fst) = [List.range' 1 (totalChunksOf {} 157286400)] ∧
      (completeManifests (uploadLargeFileStreaming {} gAllOk 157286400).trace).map
        (List.map Prod.fst) = [List.range' 1 (totalChunksOf {} 157286400)]) :=
  ⟨⟨rfl, by decide, by decide, by decide⟩,
    C3_manifest_sorted_gapfree {} gAllOk 157286400 [2, 3, 1] rfl (by decide)
      (by decide) (by decide)⟩

/-- C6 counterexample: for a 600 MB upload under the default configuration,
the concurrent orchestrator's peak of simultaneously buffered chunk bytes
equals 629145600 — the entire file — because the pre-read loop loads every
chunk into memory before any part upload starts; the claim that the whole
file is never materialized is false. -/
theorem C6_counterexample :
    peakBuffered
      (uploadLargeFileConcurrent {} gAllOk 629145600 (List.range' 1 6)).trace =
      629145600 :=
  concurrent_peak {} gAllOk 629145600 (List.range' 1 6) rfl (by decide)

/-- C6 (amended): the streaming orchestrator does hold at most one chunk in
memory at any point (its peak buffered bytes never exceed the chunk size),
but the concurrent orchestrator materializes the whole file: its peak
buffered bytes equal the total file size, because it pre-reads all chunks
before uploading. -/
theorem C6_memory_behavior (s : Settings) (g : GatewayBehavior)
    (fileSize : Nat) (finishOrder : List Nat)
    (hcreate : g.createOk = true)
    (hc : 1 ≤ s.getOptimalChunkSize fileSize) :
    peakBuffered (uploadLargeFileConcurrent s g fileSize finishOrder).trace =
      fileSize ∧
    peakBuffered (uploadLargeFileStreaming s g fileSize).trace ≤
      s.getOptimalChunkSize fileSize :=
  ⟨concurrent_peak s g fileSize finishOrder hcreate hc,
    streaming_peak s g fileSize⟩

/-- Witness for C6 (amended) at 600 MB under the default configuration. -/
theorem C6_memory_behavior_witness :
    (gAllOk.createOk = true ∧ 1 ≤ ({} : Settings).getOptimalChunkSize 629145600) ∧
    (peakBuffered
        (uploadLargeFileConcurrent {} gAllOk 629145600 (List.range' 1 6)).trace =
        629145600 ∧
      peakBuffered (uploadLargeFileStreaming {} gAllOk 629145600).trace ≤
        ({} : Settings).getOptimalChunkSize 629145600) :=
  ⟨⟨rfl, by decide⟩,
    C6_memory_behavior {} gAllOk 629145600 (List.range' 1 6) rfl (by decide)⟩

end S3
